import Mathlib

/-!
Shallow embedding of the BlogSpace backend (Express + Mongoose).

The definitions below are translated from the repository's source:

* `routes/blog.js` — listing, single read, create, update, like, comment;
* `models/Blog.js` — the `Blog` schema, `toggleLike`, `incrementViews`;
* `middleware/auth.js` — `auth` and `optionalAuth`;
* `routes/user.js` — the follow route.

Conventions: MongoDB object ids and `Date` values are abstracted to `Nat`;
fallible request handlers return `Except Nat α` where the `Nat` is the HTTP
status code of the error response; the document store is a `List` of
documents, `findById` is the first matching document, and a `save` replaces
the documents with the saved document's id.  JSON web token decoding
(`jwt.verify`'s signature check) is a parameter `decode` of the middleware
models. Fields no verified claim touches (media, media gallery, comments,
timestamps) are omitted from the document structures.
-/

namespace BlogSpace

/-! ## Word counting and read time (routes/blog.js, POST / and PUT /:id) -/

/-- The JavaScript regex class `\s` (ASCII fragment), used to model
`content.split(/\s+/)`. -/
def isWsChar (c : Char) : Bool :=
  c == ' ' || c == '\t' || c == '\n' || c == '\r' || c == '\x0b' || c == '\x0c'

/-- Scanner for `String.prototype.split` on `/\s+/`: regex matches are
maximal whitespace runs, a segment is closed at the first whitespace of each
run, and the (possibly empty) trailing segment is always emitted —
JavaScript keeps the empty segments arising at the string's boundaries.
`prevWs` records whether the previous character belonged to a whitespace
run; `cur` is the current segment, reversed. -/
def jsSplitGo : List Char → Bool → List Char → List (List Char)
  | [], _, cur => [cur.reverse]
  | c :: rest, prevWs, cur =>
    if isWsChar c then
      if prevWs then jsSplitGo rest true cur
      else cur.reverse :: jsSplitGo rest true []
    else jsSplitGo rest false (c :: cur)

/-- `s.split(/\s+/)` as a list of character lists. -/
def jsSplit (l : List Char) : List (List Char) := jsSplitGo l false []

/-- `content.split(/\s+/).length` — the "word count" the blog routes use. -/
def jsWordCount (content : String) : Nat := (jsSplit content.toList).length

/-- `Math.ceil(n / d)` on naturals; faithful for `1 ≤ d` (the only way the
code reaches it in the modelled paths). -/
def jsCeilDiv (n d : Nat) : Nat := (n + d - 1) / d

/-- `readTime = Math.ceil(wordCount / 200)` as computed by POST / and
PUT /:id in routes/blog.js. -/
def computeReadTime (content : String) : Nat := jsCeilDiv (jsWordCount content) 200

/-- Number of whitespace-separated words in the ordinary sense: the number
of maximal runs of non-whitespace characters.  `inWord` records whether the
previous character was non-whitespace.  Modelled from the spec's words
("the number of whitespace-separated words in the body") for comparison
with the `split(/\s+/)` count the code uses. -/
def wordsSpecGo : List Char → Bool → Nat
  | [], _ => 0
  | c :: rest, inWord =>
    if isWsChar c then wordsSpecGo rest false
    else (if inWord then 0 else 1) + wordsSpecGo rest true

/-- Whitespace-separated word count of a string (spec's reading). -/
def wordsSpec (content : String) : Nat := wordsSpecGo content.toList false

/-- The spec's read-time formula: `ceil(wordCount / 200)`, minimum 1, with
`wordCount` the number of whitespace-separated words.  Modelled from the
spec for comparison with `computeReadTime`. -/
def specReadTime (content : String) : Nat := max (jsCeilDiv (wordsSpec content) 200) 1

/-- The first character exists and is not whitespace. -/
def headCharNonWs : List Char → Bool
  | [] => false
  | c :: _ => !isWsChar c

/-- The last character exists and is not whitespace. -/
def lastCharNonWs (l : List Char) : Bool :=
  match l.getLast? with
  | none => false
  | some c => !isWsChar c

/-- The list is empty or its last character is not whitespace. -/
def endsOk (l : List Char) : Bool :=
  match l.getLast? with
  | none => true
  | some c => !isWsChar c

/-! ## The Blog document (models/Blog.js) -/

/-- `BlogSchema.status` enumeration (models/Blog.js line 77). -/
def statusEnum : List String := ["draft", "published", "archived"]

/-- `BlogSchema.category` enumeration (models/Blog.js line 25). -/
def categoryEnum : List String :=
  ["Technology", "Design", "Development", "Business", "Lifestyle", "Travel",
   "Food", "Health", "Education", "Entertainment", "Other"]

/-- A blog document, restricted to the fields the verified routes read or
write. -/
structure Blog where
  id : Nat
  title : String
  content : String
  excerpt : String
  author : Nat
  category : String
  tags : List String
  status : String
  publishedAt : Option Nat
  readTime : Nat
  views : Nat
  likes : List Nat
  deriving Repr, DecidableEq

/-- `BlogSchema.methods.toggleLike` (models/Blog.js lines 138-151):
`this.likes.indexOf(userId)` finds the first occurrence and
`splice(likeIndex, 1)` removes exactly that occurrence (`List.erase`
removes the first occurrence); otherwise the id is pushed at the end. -/
def toggleLike (likes : List Nat) (userId : Nat) : List Nat :=
  if userId ∈ likes then likes.erase userId else likes ++ [userId]

/-- `BlogSchema.methods.incrementViews` (models/Blog.js lines 133-136). -/
def incrementViews (b : Blog) : Blog := { b with views := b.views + 1 }

/-- `Blog.findById`: the first stored document with the given id. -/
def findBlog (store : List Blog) (id : Nat) : Option Blog :=
  store.find? (fun b => b.id == id)

/-- Persisting a document (`save` / `findByIdAndUpdate`): every stored
document with the saved document's id is replaced by it. -/
def saveBlog (store : List Blog) (b : Blog) : List Blog :=
  store.map (fun v => if v.id == b.id then b else v)

/-! ## Creating a post (routes/blog.js, POST /) -/

/-- `isLength({min, max})` on a string field. -/
def lenBetween (lo hi : Nat) (s : String) : Bool :=
  decide (lo ≤ s.length) && decide (s.length ≤ hi)

/-- Request body of POST /, restricted to the modelled fields. -/
structure CreateBody where
  title : String
  content : String
  excerpt : String
  category : String
  tags : List String
  status : Option String
  deriving Repr, DecidableEq

/-- The express-validator chain of POST / (routes/blog.js): title 5-200,
content at least 10, excerpt 10-300, category in the enumeration, at most
10 tags of 1-20 characters each, and an optional status that must be
`draft` or `published`. -/
def validCreateBody (b : CreateBody) : Bool :=
  lenBetween 5 200 b.title &&
  decide (10 ≤ b.content.length) &&
  lenBetween 10 300 b.excerpt &&
  decide (b.category ∈ categoryEnum) &&
  decide (b.tags.length ≤ 10) &&
  b.tags.all (lenBetween 1 20) &&
  (match b.status with
   | none => true
   | some s => s == "draft" || s == "published")

/-- POST / (routes/blog.js): validate, default the status to `draft`,
compute `readTime` from `content.split(/\s+/).length`, set `publishedAt`
exactly when the initial status is `published`, and persist with the
authenticated author attached.  `newId` stands for the id the store
assigns and `now` for `new Date()`. -/
def createBlog (newId authorId : Nat) (b : CreateBody) (now : Nat) : Except Nat Blog :=
  if !validCreateBody b then .error 400
  else
    let status := b.status.getD "draft"
    .ok { id := newId, title := b.title, content := b.content,
          excerpt := b.excerpt, author := authorId, category := b.category,
          tags := b.tags, status := status,
          publishedAt := if status == "published" then some now else none,
          readTime := computeReadTime b.content,
          views := 0, likes := [] }

/-! ## Updating a post (routes/blog.js, PUT /:id) -/

/-- An update request body after the allow-list filter
(`title, content, excerpt, category, tags, media, mediaGallery, status`),
restricted to the modelled fields; absent fields are `none`. -/
structure UpdatePatch where
  title : Option String
  content : Option String
  excerpt : Option String
  category : Option String
  tags : Option (List String)
  status : Option String
  deriving Repr, DecidableEq

/-- The express-validator chain of PUT /:id — every field optional, with
the create rules, except that only the tag array length is checked (the
update chain has no per-tag rule) and `status` must be `draft` or
`published` (`archived` is not accepted even though the schema enumeration
allows it). -/
def validUpdatePatch (p : UpdatePatch) : Bool :=
  (match p.title with | none => true | some s => lenBetween 5 200 s) &&
  (match p.content with | none => true | some s => decide (10 ≤ s.length)) &&
  (match p.excerpt with | none => true | some s => lenBetween 10 300 s) &&
  (match p.category with | none => true | some s => decide (s ∈ categoryEnum)) &&
  (match p.tags with | none => true | some l => decide (l.length ≤ 10)) &&
  (match p.status with | none => true | some s => s == "draft" || s == "published")

/-- The mutation PUT /:id applies after validation and the ownership check:
a transition into `published` stamps `publishedAt` with the current time
only when the stored status was not already `published`; a transition to
`draft` nulls it; otherwise it is untouched.  `readTime` is recomputed
exactly when the patch carries content. -/
def applyPatch (blog : Blog) (p : UpdatePatch) (now : Nat) : Blog :=
  { blog with
    title := p.title.getD blog.title,
    content := p.content.getD blog.content,
    excerpt := p.excerpt.getD blog.excerpt,
    category := p.category.getD blog.category,
    tags := p.tags.getD blog.tags,
    status := p.status.getD blog.status,
    publishedAt :=
      if p.status == some "published" && !(blog.status == "published") then some now
      else if p.status == some "draft" then none
      else blog.publishedAt,
    readTime :=
      match p.content with
      | some c => computeReadTime c
      | none => blog.readTime }

/-- PUT /:id (routes/blog.js): 400 on validation failure — checked before
any lookup or mutation — then 404 when the id resolves to no post, 403 when
the caller is not the author, and otherwise the patched document is written
back and returned. -/
def updateBlog (store : List Blog) (blogId uid : Nat) (p : UpdatePatch) (now : Nat) :
    Except Nat (List Blog × Blog) :=
  if !validUpdatePatch p then .error 400
  else
    match findBlog store blogId with
    | none => .error 404
    | some blog =>
      if !(blog.author == uid) then .error 403
      else
        let blog' := applyPatch blog p now
        .ok (saveBlog store blog', blog')

/-! ## Reading a post (routes/blog.js, GET /:id) -/

/-- GET /:id (routes/blog.js): a missing post answers 404; a non-published
post read by anyone but its author also answers 404 (not 403); a read of a
published post by anyone but its author increments the view counter
(`incrementViews`, which saves) before the document is returned.  `viewer`
is the identity `optionalAuth` attached, if any. -/
def getBlog (store : List Blog) (blogId : Nat) (viewer : Option Nat) :
    Except Nat (Blog × List Blog) :=
  match findBlog store blogId with
  | none => .error 404
  | some blog =>
    let ownerViewing : Bool :=
      match viewer with
      | none => false
      | some v => v == blog.author
    if !(blog.status == "published") && !ownerViewing then .error 404
    else if blog.status == "published" && !ownerViewing then
      let blog' := incrementViews blog
      .ok (blog', saveBlog store blog')
    else .ok (blog, store)

/-! ## Listing posts (routes/blog.js, GET /) -/

/-- Char-list begins-with test. -/
def beginsWith : List Char → List Char → Bool
  | _, [] => true
  | [], _ :: _ => false
  | a :: as, b :: bs => a == b && beginsWith as bs

/-- Substring occurrence on char lists. -/
def hasSubstr : List Char → List Char → Bool
  | [], pat => pat.isEmpty
  | l@(_ :: rest), pat => beginsWith l pat || hasSubstr rest pat

/-- Case-insensitive containment: models the `$regex` / `RegExp` filters
with `$options: 'i'` for search strings without regex metacharacters. -/
def ciContains (hay pat : String) : Bool :=
  hasSubstr (hay.toList.map Char.toLower) (pat.toList.map Char.toLower)

/-- The MongoDB filter GET / builds (routes/blog.js lines 91-106):
published status always; a category filter unless the parameter is absent
or `all`; an `$or` free-text search over title, excerpt, content and tags
when a search string is present. -/
def matchesListQuery (category search : Option String) (b : Blog) : Bool :=
  b.status == "published" &&
  (match category with
   | none => true
   | some c => c == "all" || b.category == c) &&
  (match search with
   | none => true
   | some s =>
     ciContains b.title s || ciContains b.excerpt s ||
     ciContains b.content s || b.tags.any (fun t => ciContains t s))

/-- The sort key GET / requests from the store (lines 108-124): `newest`
and the default sort by `publishedAt` descending, `oldest` ascending,
`popular` and `trending` both by views descending.  The external document
database's sort is modelled as an insertion sort by that key (every claim
about the listing is insensitive to which permutation the sort returns). -/
def sortKeyLe (sort : String) (a b : Blog) : Prop :=
  (if sort == "oldest" then decide (a.publishedAt.getD 0 ≤ b.publishedAt.getD 0)
   else if sort == "popular" || sort == "trending" then decide (b.views ≤ a.views)
   else decide (b.publishedAt.getD 0 ≤ a.publishedAt.getD 0)) = true

instance (sort : String) : DecidableRel (sortKeyLe sort) :=
  fun a b => instDecidableEqBool _ true

/-- The store-side sort of GET /. -/
def sortBlogs (sort : String) (l : List Blog) : List Blog :=
  List.insertionSort (sortKeyLe sort) l

/-- `Math.max(1, parseInt(page))` (routes/blog.js line 88). -/
def pageNumOf (page : Nat) : Nat := max 1 page

/-- `Math.min(100, Math.max(1, parseInt(limit)))` (line 89). -/
def limitNumOf (limit : Nat) : Nat := min 100 (max 1 limit)

/-- The payload GET / answers with. -/
structure ListResp where
  blogs : List Blog
  totalPages : Nat
  currentPage : Nat
  total : Nat
  deriving Repr, DecidableEq

/-- GET / (routes/blog.js).  `page` and `limit` are the request parameters
after the destructuring defaults (1 and 10) and `parseInt`, abstracted to
naturals.  The page returned is `skip((pageNum-1)*limitNum)` then
`limit(limitNum)` over the sorted matching documents; `total` counts every
matching document.  Note `totalPages` is `Math.ceil(total / limit)` with
the raw `limit`, not the clamped `limitNum` (line 171). -/
def listBlogs (store : List Blog) (page limit : Nat)
    (category search : Option String) (sort : String) : ListResp :=
  let pageNum := pageNumOf page
  let limitNum := limitNumOf limit
  let matched := store.filter (matchesListQuery category search)
  let sorted := sortBlogs sort matched
  { blogs := (sorted.drop ((pageNum - 1) * limitNum)).take limitNum,
    totalPages := jsCeilDiv matched.length limit,
    currentPage := page,
    total := matched.length }

/-! ## Token verification (middleware/auth.js) -/

/-- A decoded JWT payload: the embedded user id (`userId`, possibly absent
from the payload) and the expiry stamp `exp`. -/
structure Payload where
  userId : Option Nat
  exp : Nat
  deriving Repr, DecidableEq

/-- The outcome of a middleware: an error response with its HTTP status, or
passing control on with the identity (if any) attached to the request. -/
inductive MwResult where
  | errorResp (status : Nat)
  | proceed (user : Option Nat)
  deriving Repr, DecidableEq

/-- Remove the first occurrence of `pat`
(`String.prototype.replace` with a plain-string pattern). -/
def removeFirstOcc (pat : List Char) : List Char → List Char
  | [] => []
  | c :: rest =>
    if beginsWith (c :: rest) pat then (c :: rest).drop pat.length
    else c :: removeFirstOcc pat rest

/-- `authHeader.replace('Bearer ', '')` (middleware/auth.js lines 29, 90). -/
def bearerToken (h : String) : String :=
  String.mk (removeFirstOcc ("Bearer ".toList) h.toList)

/-- `authHeader.startsWith('Bearer ')` (middleware/auth.js line 24). -/
def hasBearerPrefix (h : String) : Bool :=
  beginsWith h.toList ("Bearer ".toList)

/-- The mandatory verification middleware `auth` (middleware/auth.js lines
18-86).  `decode` abstracts `jwt.verify`'s signature check and payload
decoding — `none` stands for a malformed or forged token
(`JsonWebTokenError`) — after which expiry is the payload's `exp` against
`now` (`TokenExpiredError`); `blacklist` is the in-memory revocation set;
`users` is the identity store, of which `auth` only needs the ids.  Error
responses attach no identity. -/
def authMw (decode : String → Option Payload) (header : Option String)
    (blacklist : List String) (now : Nat) (users : List Nat) : MwResult :=
  match header with
  | none => .errorResp 401
  | some h =>
    if !hasBearerPrefix h then .errorResp 401
    else
      let token := bearerToken h
      if token ∈ blacklist then .errorResp 401
      else
        match decode token with
        | none => .errorResp 401
        | some p =>
          if p.exp ≤ now then .errorResp 401
          else
            match p.userId with
            | none => .errorResp 401
            | some uid =>
              if uid ∈ users then .proceed (some uid)
              else .errorResp 404

/-- The optional verification middleware `optionalAuth` (middleware/auth.js
lines 88-104): no Bearer-prefix requirement, no blacklist consultation, and
the whole body sits in a try/catch whose catch calls `next()`, so every
verification failure falls through to an unauthenticated request.  An empty
extracted token is falsy and skips verification; `findById` of a payload
with no user id resolves to no user.  The `blacklist` argument is accepted
(the revocation set lives in the same module) and never used, mirroring the
code. -/
def optionalAuthMw (decode : String → Option Payload) (header : Option String)
    (blacklist : List String) (now : Nat) (users : List Nat) : MwResult :=
  match header with
  | none => .proceed none
  | some h =>
    let token := bearerToken h
    if token == "" then .proceed none
    else
      match decode token with
      | none => .proceed none
      | some p =>
        if p.exp ≤ now then .proceed none
        else
          match p.userId with
          | none => .proceed none
          | some uid =>
            if uid ∈ users then .proceed (some uid) else .proceed none

/-! ## The follow route (routes/user.js, POST /follow/:userId) -/

/-- A user document, restricted to the fields the follow route touches. -/
structure UserRec where
  id : Nat
  followers : List Nat
  following : List Nat
  deriving Repr, DecidableEq

/-- `User.findById`: the first stored document with the given id. -/
def findUser (store : List UserRec) (id : Nat) : Option UserRec :=
  store.find? (fun u => u.id == id)

/-- Persisting a user document. -/
def saveUser (store : List UserRec) (u : UserRec) : List UserRec :=
  store.map (fun v => if v.id == u.id then u else v)

/-- POST /follow/:userId (routes/user.js lines 351-380), returning the
response paired with the store as it stands when the response goes out.
Order of checks as in the code: self-follow 400, missing target 404, then
the duplicate check against the current user's `following` list 400; only
on the success path are the two pushes saved (two separate writes).  A
missing record for the authenticated user itself would throw on
`.following` and land in the catch-all 500. -/
def followRoute (store : List UserRec) (authUid targetUid : Nat) :
    Except Nat Unit × List UserRec :=
  if authUid == targetUid then (.error 400, store)
  else
    match findUser store targetUid with
    | none => (.error 404, store)
    | some target =>
      match findUser store authUid with
      | none => (.error 500, store)
      | some current =>
        if targetUid ∈ current.following then (.error 400, store)
        else
          let current' := { current with following := current.following ++ [targetUid] }
          let store1 := saveUser store current'
          let target' := { target with followers := target.followers ++ [authUid] }
          (.ok (), saveUser store1 target')

/-! ## Fixtures used by witnesses and counterexamples -/

/-- A draft post owned by user 9. -/
def blogDraft : Blog :=
  { id := 2, title := "Draft title", content := "draft body content",
    excerpt := "draft excerpt!!", author := 9, category := "Other", tags := [],
    status := "draft", publishedAt := none, readTime := 1, views := 0, likes := [] }

/-- A published post owned by user 9. -/
def blogPub : Blog :=
  { id := 3, title := "Published title", content := "published body content",
    excerpt := "published excerpt", author := 9, category := "Other", tags := [],
    status := "published", publishedAt := some 1, readTime := 1, views := 7, likes := [] }

/-- An archived post owned by user 9. -/
def blogArchived : Blog :=
  { id := 1, title := "Archived post", content := "archived body content",
    excerpt := "archived excerpt", author := 9, category := "Other", tags := [],
    status := "archived", publishedAt := none, readTime := 1, views := 0, likes := [] }

/-- A patch that only sets status `archived`. -/
def patchArchived : UpdatePatch :=
  { title := none, content := none, excerpt := none, category := none,
    tags := none, status := some "archived" }

/-- The empty patch. -/
def patchEmptyU : UpdatePatch :=
  { title := none, content := none, excerpt := none, category := none,
    tags := none, status := none }

/-! ## C2 — toggleLike is an involution on membership and count -/

/-- Supporting invariant: `toggleLike` never introduces a duplicate — an id
occurring at most once in the like list keeps occurring at most once, so
the at-most-once hypothesis of the involution theorem is preserved by the
operation itself. -/
theorem toggleLike_count_le_one (likes : List Nat) (u v : Nat)
    (h : likes.count v ≤ 1) : (toggleLike likes u).count v ≤ 1 := by
  unfold toggleLike
  by_cases hm : u ∈ likes
  · rw [if_pos hm]
    exact le_trans ((likes.erase_sublist u).count_le v) h
  · rw [if_neg hm, List.count_append]
    by_cases hv : v = u
    · subst hv
      have h0 : likes.count v = 0 := List.count_eq_zero.mpr hm
      simp [h0]
    · simp [List.count_singleton', hv]
      simpa using h

/-- Claim C2: toggling a like twice in succession by the same identity
restores both the identity's membership in the like list and the like
count, provided the identity occurs at most once beforehand (the like list
represents a set; `toggleLike_count_le_one` shows the condition is an
invariant of the operation). -/
theorem toggleLike_twice_restores (likes : List Nat) (u : Nat)
    (h : likes.count u ≤ 1) :
    (u ∈ toggleLike (toggleLike likes u) u ↔ u ∈ likes) ∧
    (toggleLike (toggleLike likes u) u).length = likes.length := by
  by_cases hm : u ∈ likes
  · have hc : likes.count u = 1 := le_antisymm h (List.one_le_count_iff.mpr hm)
    have h1 : toggleLike likes u = likes.erase u := by
      unfold toggleLike; rw [if_pos hm]
    have hnm : u ∉ likes.erase u := by
      refine List.count_eq_zero.mp ?_
      rw [List.count_erase_self, hc]
    have h2 : toggleLike (likes.erase u) u = likes.erase u ++ [u] := by
      unfold toggleLike; rw [if_neg hnm]
    have hpos : 0 < likes.length := List.length_pos_of_mem hm
    rw [h1, h2]
    constructor
    · simp [hm]
    · rw [List.length_append, List.length_erase_of_mem hm]
      simp only [List.length_singleton]
      omega
  · have h1 : toggleLike likes u = likes ++ [u] := by
      unfold toggleLike; rw [if_neg hm]
    have hm2 : u ∈ likes ++ [u] := by simp
    have h3 : (likes ++ [u]).erase u = likes := by
      rw [List.erase_append_right _ hm]
      simp
    have h2 : toggleLike (likes ++ [u]) u = likes := by
      unfold toggleLike; rw [if_pos hm2, h3]
    rw [h1, h2]
    exact ⟨Iff.rfl, rfl⟩

/-- Witness for C2 at the concrete like list `[5, 7]` and identity 5. -/
theorem toggleLike_twice_restores_w :
    (([5, 7] : List Nat).count 5 ≤ 1) ∧
    ((5 ∈ toggleLike (toggleLike [5, 7] 5) 5 ↔ 5 ∈ ([5, 7] : List Nat)) ∧
     (toggleLike (toggleLike [5, 7] 5) 5).length = ([5, 7] : List Nat).length) :=
  ⟨by decide, toggleLike_twice_restores [5, 7] 5 (by decide)⟩

/-! ## C9 — status `archived` is rejected by the update validator -/

/-- Claim C9: PUT /:id rejects a patch whose status is `archived` with a
validation error before anything is looked up or mutated, although
`archived` is a legal value of the stored status enumeration; consequently
a successful update never yields an archived post unless the stored post
was archived already. -/
theorem updateRejectsArchived :
    (∀ store blogId uid p now, p.status = some "archived" →
        updateBlog store blogId uid p now = Except.error 400) ∧
    "archived" ∈ statusEnum ∧
    (∀ store blogId uid p now st b,
        updateBlog store blogId uid p now = Except.ok (st, b) →
        b.status = "archived" →
        ∃ orig, findBlog store blogId = some orig ∧ orig.status = "archived") := by
  refine ⟨?_, by decide, ?_⟩
  · intro store blogId uid p now hp
    have hst : (match p.status with
        | none => true
        | some s => s == "draft" || s == "published") = false := by
      rw [hp]; decide
    have hv : validUpdatePatch p = false := by
      unfold validUpdatePatch
      rw [hst, Bool.and_false]
    unfold updateBlog
    rw [hv]
    rfl
  · intro store blogId uid p now st b hok hbs
    unfold updateBlog at hok
    split at hok
    · simp at hok
    · rename_i hvraw
      have hvb : validUpdatePatch p = true := by
        cases hval : validUpdatePatch p
        · rw [hval] at hvraw; simp at hvraw
        · rfl
      split at hok
      · simp at hok
      · rename_i blog hfind
        split at hok
        · simp at hok
        · simp only [Except.ok.injEq, Prod.mk.injEq] at hok
          have hb : b = applyPatch blog p now := hok.2.symm
          refine ⟨blog, hfind, ?_⟩
          cases hps : p.status with
          | none =>
            rw [hb] at hbs
            simpa [applyPatch, hps] using hbs
          | some s =>
            exfalso
            have hss : (s == "draft" || s == "published") = true := by
              unfold validUpdatePatch at hvb
              rw [hps] at hvb
              simp only [Bool.and_eq_true] at hvb
              exact hvb.2
            have hsb : b.status = s := by
              rw [hb]; simp [applyPatch, hps]
            rw [hbs] at hsb
            rcases Bool.or_eq_true _ _ |>.mp hss with h' | h'
            · exact absurd (hsb.trans (eq_of_beq h')) (by decide)
            · exact absurd (hsb.trans (eq_of_beq h')) (by decide)

/-- Witness for C9: a concrete archived patch is refused, and a concrete
successful no-op update of an archived post shows the archived result came
from an already archived post. -/
theorem updateRejectsArchived_w :
    updateBlog [] 0 0 patchArchived 0 = Except.error 400 ∧
    (∃ orig, findBlog [blogArchived] 1 = some orig ∧ orig.status = "archived") := by
  constructor
  · exact updateRejectsArchived.1 [] 0 0 patchArchived 0 rfl
  · exact updateRejectsArchived.2.2 [blogArchived] 1 9 patchEmptyU 0
      (saveBlog [blogArchived] (applyPatch blogArchived patchEmptyU 0))
      (applyPatch blogArchived patchEmptyU 0) rfl rfl

/-! ## C4 — visibility of drafts and published posts -/

/-- Claim C4: GET /:id answers 404 (not 403) for a non-published post to
every viewer except its authenticated author, for whom the read succeeds;
when the post is published the read succeeds for every viewer. -/
theorem draftVisibility (store : List Blog) (blogId : Nat) (blog : Blog)
    (hfind : findBlog store blogId = some blog) :
    (blog.status ≠ "published" →
       getBlog store blogId none = Except.error 404 ∧
       (∀ v, v ≠ blog.author → getBlog store blogId (some v) = Except.error 404) ∧
       getBlog store blogId (some blog.author) = Except.ok (blog, store)) ∧
    (blog.status = "published" →
       ∀ viewer, ∃ r, getBlog store blogId viewer = Except.ok r) := by
  constructor
  · intro hst
    have hb : (blog.status == "published") = false := beq_eq_false_iff_ne.mpr hst
    refine ⟨?_, ?_, ?_⟩
    · simp [getBlog, hfind, hb]
    · intro v hv
      have hvb : (v == blog.author) = false := beq_eq_false_iff_ne.mpr hv
      simp [getBlog, hfind, hb, hvb]
    · simp [getBlog, hfind, hb]
  · intro hst viewer
    have hb : (blog.status == "published") = true := by
      rw [hst]; exact beq_self_eq_true _
    cases viewer with
    | none =>
      exact ⟨(incrementViews blog, saveBlog store (incrementViews blog)),
        by simp [getBlog, hfind, hb]⟩
    | some v =>
      cases hv : (v == blog.author) with
      | true =>
        exact ⟨(blog, store), by simp [getBlog, hfind, hb, hv]⟩
      | false =>
        exact ⟨(incrementViews blog, saveBlog store (incrementViews blog)),
          by simp [getBlog, hfind, hb, hv]⟩

/-- Witness for C4 at a one-draft store: hidden from the anonymous viewer
and from user 3, returned unchanged to its author 9. -/
theorem draftVisibility_w :
    getBlog [blogDraft] 2 none = Except.error 404 ∧
    getBlog [blogDraft] 2 (some 3) = Except.error 404 ∧
    getBlog [blogDraft] 2 (some 9) = Except.ok (blogDraft, [blogDraft]) := by
  have h := (draftVisibility [blogDraft] 2 blogDraft rfl).1 (by decide)
  exact ⟨h.1, h.2.1 3 (by decide), h.2.2⟩

/-! ## C8 — the view counter on reads of a published post -/

/-- Claim C8: reading a published post through GET /:id increments its view
counter by exactly one and persists the increment, unless the authenticated
viewer is the post's author, in which case nothing changes; unauthenticated
reads always increment. -/
theorem viewIncrement (store : List Blog) (blogId : Nat) (blog : Blog)
    (hfind : findBlog store blogId = some blog)
    (hpub : blog.status = "published") :
    getBlog store blogId none
        = Except.ok (incrementViews blog, saveBlog store (incrementViews blog)) ∧
    (∀ v, v ≠ blog.author →
       getBlog store blogId (some v)
         = Except.ok (incrementViews blog, saveBlog store (incrementViews blog))) ∧
    getBlog store blogId (some blog.author) = Except.ok (blog, store) ∧
    (incrementViews blog).views = blog.views + 1 := by
  have hb : (blog.status == "published") = true := by
    rw [hpub]; exact beq_self_eq_true _
  refine ⟨?_, ?_, ?_, rfl⟩
  · simp [getBlog, hfind, hb]
  · intro v hv
    have hvb : (v == blog.author) = false := beq_eq_false_iff_ne.mpr hv
    simp [getBlog, hfind, hb, hvb]
  · simp [getBlog, hfind, hb]

/-- Witness for C8 at a one-post store whose post has 7 views. -/
theorem viewIncrement_w :
    getBlog [blogPub] 3 none
        = Except.ok (incrementViews blogPub, saveBlog [blogPub] (incrementViews blogPub)) ∧
    getBlog [blogPub] 3 (some 4)
        = Except.ok (incrementViews blogPub, saveBlog [blogPub] (incrementViews blogPub)) ∧
    getBlog [blogPub] 3 (some 9) = Except.ok (blogPub, [blogPub]) ∧
    (incrementViews blogPub).views = 8 := by
  have h := viewIncrement [blogPub] 3 blogPub rfl rfl
  exact ⟨h.1, h.2.1 4 (by decide), h.2.2.1, by rw [h.2.2.2]; rfl⟩

/-! ## C1 — publishedAt transitions on update -/

/-- A patch that only sets status `published`. -/
def patchPub : UpdatePatch :=
  { title := none, content := none, excerpt := none, category := none,
    tags := none, status := some "published" }

/-- A patch that only sets status `draft`. -/
def patchDraft : UpdatePatch :=
  { title := none, content := none, excerpt := none, category := none,
    tags := none, status := some "draft" }

/-- Claim C1: for an owner's valid update of an existing post, a patch with
status `published` stamps `publishedAt` with the current time exactly when
the post was not already published and leaves it unchanged when it was;
a patch with status `draft` nulls it. -/
theorem updatePublishStamp (store : List Blog) (blogId uid : Nat)
    (p : UpdatePatch) (now : Nat) (blog : Blog)
    (hfind : findBlog store blogId = some blog)
    (hown : blog.author = uid)
    (hval : validUpdatePatch p = true) :
    updateBlog store blogId uid p now
        = Except.ok (saveBlog store (applyPatch blog p now), applyPatch blog p now) ∧
    (p.status = some "published" → blog.status ≠ "published" →
        (applyPatch blog p now).publishedAt = some now) ∧
    (p.status = some "published" → blog.status = "published" →
        (applyPatch blog p now).publishedAt = blog.publishedAt) ∧
    (p.status = some "draft" → (applyPatch blog p now).publishedAt = none) := by
  refine ⟨?_, ?_, ?_, ?_⟩
  · have hownb : (blog.author == uid) = true := by
      rw [hown]; exact beq_self_eq_true _
    simp [updateBlog, hval, hfind, hownb]
  · intro hp hst
    have h1 : (p.status == some "published") = true := by rw [hp]; decide
    have h2 : (blog.status == "published") = false := beq_eq_false_iff_ne.mpr hst
    simp [applyPatch, h1, h2]
  · intro hp hst
    have h1 : (p.status == some "published") = true := by rw [hp]; decide
    have h2 : (blog.status == "published") = true := by
      rw [hst]; exact beq_self_eq_true _
    have h3 : (p.status == some "draft") = false := by rw [hp]; decide
    simp [applyPatch, h1, h2, h3]
  · intro hp
    have h0 : (p.status == some "published") = false := by rw [hp]; decide
    have h1 : (p.status == some "draft") = true := by rw [hp]; decide
    simp [applyPatch, h0, h1]

/-- Witness for C1: publishing a draft stamps the time 5; re-publishing a
published post keeps its stamp; reverting to draft nulls it; and the update
of the draft succeeds end-to-end for its owner. -/
theorem updatePublishStamp_w :
    (applyPatch blogDraft patchPub 5).publishedAt = some 5 ∧
    (applyPatch blogPub patchPub 5).publishedAt = blogPub.publishedAt ∧
    (applyPatch blogPub patchDraft 5).publishedAt = none ∧
    updateBlog [blogDraft] 2 9 patchPub 5
      = Except.ok (saveBlog [blogDraft] (applyPatch blogDraft patchPub 5),
                   applyPatch blogDraft patchPub 5) := by
  have h1 := updatePublishStamp [blogDraft] 2 9 patchPub 5 blogDraft rfl rfl rfl
  have h2 := updatePublishStamp [blogPub] 3 9 patchPub 5 blogPub rfl rfl rfl
  have h3 := updatePublishStamp [blogPub] 3 9 patchDraft 5 blogPub rfl rfl rfl
  exact ⟨h1.2.1 rfl (by decide), h2.2.2.1 rfl rfl, h3.2.2.2 rfl, h1.1⟩

/-! ## C7 — double follow and self-follow -/

/-- How a save rewrites a later lookup: the first stored document with the
looked-up id is rewritten exactly when its id equals the saved document's
id. -/
theorem findUser_saveUser (store : List UserRec) (u : UserRec) (x : Nat) :
    findUser (saveUser store u) x
      = (findUser store x).map (fun v => if v.id == u.id then u else v) := by
  induction store with
  | nil => rfl
  | cons v tl ih =>
    by_cases hv : v.id = u.id
    · by_cases hx : v.id = x
      · have hux : u.id = x := hv ▸ hx
        simp [findUser, saveUser, List.find?_cons, hv, hux]
      · have hub : (u.id == x) = false := by rw [← hv]; simp [hx]
        have hvx : (v.id == x) = false := by simp [hx]
        simpa [findUser, saveUser, List.find?_cons, hv, hub, hvx] using ih
    · by_cases hx : v.id = x
      · have hvx : (v.id == x) = true := by simp [hx]
        simp [findUser, saveUser, List.find?_cons, hv, hvx]
      · have hvx : (v.id == x) = false := by simp [hx]
        simpa [findUser, saveUser, List.find?_cons, hv, hvx] using ih

/-- Claim C7: following oneself always fails (400) without touching the
store; a follow when the caller already follows the target fails with the
conflict signal (400) and leaves the store exactly as it was; in
particular, after a successful follow, immediately repeating the identical
follow fails with 400 and leaves the store as the first call left it. -/
theorem followConflict :
    (∀ store uid, followRoute store uid uid = (Except.error 400, store)) ∧
    (∀ store a b target current, a ≠ b →
        findUser store b = some target →
        findUser store a = some current →
        b ∈ current.following →
        followRoute store a b = (Except.error 400, store)) ∧
    (∀ store a b store', followRoute store a b = (Except.ok (), store') →
        followRoute store' a b = (Except.error 400, store')) := by
  refine ⟨?_, ?_, ?_⟩
  · intro store uid
    simp [followRoute]
  · intro store a b target current hab hfb hfa hmem
    have habq : (a == b) = false := beq_eq_false_iff_ne.mpr hab
    simp [followRoute, habq, hfb, hfa, hmem]
  · intro store a b store' hsucc
    unfold followRoute at hsucc
    split at hsucc
    · simp at hsucc
    · rename_i hab
      split at hsucc
      · simp at hsucc
      · rename_i target htb
        split at hsucc
        · simp at hsucc
        · rename_i current hca
          split at hsucc
          · simp at hsucc
          · rename_i hnmem
            simp only [Prod.mk.injEq] at hsucc
            have hstore : store' = saveUser
                (saveUser store { current with following := current.following ++ [b] })
                { target with followers := target.followers ++ [a] } := hsucc.2.symm
            have hcurid : current.id = a := by
              have h := hca
              unfold findUser at h
              have h2 := List.find?_some h
              simpa using h2
            have htgtid : target.id = b := by
              have h := htb
              unfold findUser at h
              have h2 := List.find?_some h
              simpa using h2
            have habne : a ≠ b := by
              intro h
              exact hab (by rw [h]; exact beq_self_eq_true _)
            have habq : (a == b) = false := beq_eq_false_iff_ne.mpr habne
            have hbaq : (b == a) = false := beq_eq_false_iff_ne.mpr (Ne.symm habne)
            have hfa' : findUser store' a
                = some { current with following := current.following ++ [b] } := by
              rw [hstore, findUser_saveUser, findUser_saveUser, hca]
              simp [hcurid, htgtid, habne, Ne.symm habne]
            have hfb' : findUser store' b
                = some { target with followers := target.followers ++ [a] } := by
              rw [hstore, findUser_saveUser, findUser_saveUser, htb]
              simp [hcurid, htgtid, habne, Ne.symm habne]
            have hmem' : b ∈ ({ current with
                following := current.following ++ [b] } : UserRec).following := by
              simp
            simp [followRoute, habq, hfa', hfb', hmem']

/-- Fixture: two unrelated users. -/
def userA : UserRec := { id := 1, followers := [], following := [] }

/-- Fixture: a second user. -/
def userB : UserRec := { id := 2, followers := [], following := [] }

/-- Witness for C7: self-follow fails on a concrete store, and a follow of
user 2 by user 1 repeated immediately fails, keeping the store of the first
call. -/
theorem followConflict_w :
    followRoute [userA, userB] 1 1 = (Except.error 400, [userA, userB]) ∧
    followRoute (followRoute [userA, userB] 1 2).2 1 2
      = (Except.error 400, (followRoute [userA, userB] 1 2).2) := by
  constructor
  · exact followConflict.1 [userA, userB] 1
  · exact followConflict.2.2 [userA, userB] 1 2 (followRoute [userA, userB] 1 2).2 rfl

/-! ## C5 — mandatory token verification -/

/-- Claim C5: `auth` answers 401 for a missing header or one without the
Bearer prefix, for a revoked token, for a malformed token and for an
expired one — attaching no identity in each case — answers 404 when a
valid, unexpired, unrevoked token's embedded id resolves to no user, and
otherwise attaches the resolved identity and proceeds. -/
theorem authVerification (decode : String → Option Payload)
    (blacklist : List String) (now : Nat) (users : List Nat) :
    authMw decode none blacklist now users = MwResult.errorResp 401 ∧
    (∀ h : String, hasBearerPrefix h = false →
        authMw decode (some h) blacklist now users = MwResult.errorResp 401) ∧
    (∀ h : String, hasBearerPrefix h = true →
        bearerToken h ∈ blacklist →
        authMw decode (some h) blacklist now users = MwResult.errorResp 401) ∧
    (∀ h : String, hasBearerPrefix h = true →
        bearerToken h ∉ blacklist → decode (bearerToken h) = none →
        authMw decode (some h) blacklist now users = MwResult.errorResp 401) ∧
    (∀ (h : String) (p : Payload),
        hasBearerPrefix h = true →
        bearerToken h ∉ blacklist → decode (bearerToken h) = some p →
        p.exp ≤ now →
        authMw decode (some h) blacklist now users = MwResult.errorResp 401) ∧
    (∀ (h : String) (p : Payload) (uid : Nat),
        hasBearerPrefix h = true →
        bearerToken h ∉ blacklist → decode (bearerToken h) = some p →
        now < p.exp → p.userId = some uid → uid ∉ users →
        authMw decode (some h) blacklist now users = MwResult.errorResp 404) ∧
    (∀ (h : String) (p : Payload) (uid : Nat),
        hasBearerPrefix h = true →
        bearerToken h ∉ blacklist → decode (bearerToken h) = some p →
        now < p.exp → p.userId = some uid → uid ∈ users →
        authMw decode (some h) blacklist now users = MwResult.proceed (some uid)) := by
  refine ⟨rfl, ?_, ?_, ?_, ?_, ?_, ?_⟩
  · intro h hpre
    simp [authMw, hpre]
  · intro h hpre hbl
    simp [authMw, hpre, hbl]
  · intro h hpre hbl hd
    simp [authMw, hpre, hbl, hd]
  · intro h p hpre hbl hd hexp
    simp [authMw, hpre, hbl, hd, hexp]
  · intro h p uid hpre hbl hd hlt huid hnm
    have hexp : ¬ p.exp ≤ now := not_le.mpr hlt
    simp [authMw, hpre, hbl, hd, hexp, huid, hnm]
  · intro h p uid hpre hbl hd hlt huid hm
    have hexp : ¬ p.exp ≤ now := not_le.mpr hlt
    simp [authMw, hpre, hbl, hd, hexp, huid, hm]

/-- A concrete stand-in for `jwt.verify`: one good token, one expired one,
one whose embedded id matches no user, everything else malformed. -/
def decodeFix : String → Option Payload := fun s =>
  if s = "tokgood" then some { userId := some 1, exp := 100 }
  else if s = "tokold" then some { userId := some 1, exp := 5 }
  else if s = "tokghost" then some { userId := some 42, exp := 100 }
  else none

/-- Witness for C5 against `decodeFix`, the revocation set
`["tokbad"]`, clock 10 and identity store `[1]`. -/
theorem authVerification_w :
    authMw decodeFix none ["tokbad"] 10 [1] = MwResult.errorResp 401 ∧
    authMw decodeFix (some "tokgood") ["tokbad"] 10 [1] = MwResult.errorResp 401 ∧
    authMw decodeFix (some "Bearer tokbad") ["tokbad"] 10 [1] = MwResult.errorResp 401 ∧
    authMw decodeFix (some "Bearer junk") ["tokbad"] 10 [1] = MwResult.errorResp 401 ∧
    authMw decodeFix (some "Bearer tokold") ["tokbad"] 10 [1] = MwResult.errorResp 401 ∧
    authMw decodeFix (some "Bearer tokghost") ["tokbad"] 10 [1] = MwResult.errorResp 404 ∧
    authMw decodeFix (some "Bearer tokgood") ["tokbad"] 10 [1] = MwResult.proceed (some 1) := by
  have h := authVerification decodeFix ["tokbad"] 10 [1]
  refine ⟨h.1, ?_, ?_, ?_, ?_, ?_, ?_⟩
  · exact h.2.1 "tokgood" (by decide)
  · exact h.2.2.1 "Bearer tokbad" (by decide) (by decide)
  · exact h.2.2.2.1 "Bearer junk" (by decide) (by decide) (by decide)
  · exact h.2.2.2.2.1 "Bearer tokold" { userId := some 1, exp := 5 }
      (by decide) (by decide) (by decide) (by decide)
  · exact h.2.2.2.2.2.1 "Bearer tokghost" { userId := some 42, exp := 100 } 42
      (by decide) (by decide) (by decide) (by decide) (by decide) (by decide)
  · exact h.2.2.2.2.2.2 "Bearer tokgood" { userId := some 1, exp := 100 } 1
      (by decide) (by decide) (by decide) (by decide) (by decide) (by decide)

/-! ## C10 — optional verification ignores revocation and swallows failures -/

/-- Claim C10: `optionalAuth` never consults the revocation set (its result
is the same for any two blacklists), never answers an error response (every
request proceeds), still resolves and attaches a revoked but otherwise
valid token, and lets a malformed, expired or unresolvable token fall
through to an unauthenticated request. -/
theorem optionalAuthFallthrough (decode : String → Option Payload)
    (header : Option String) (now : Nat) (users : List Nat) :
    (∀ bl1 bl2, optionalAuthMw decode header bl1 now users
        = optionalAuthMw decode header bl2 now users) ∧
    (∀ bl, ∃ u, optionalAuthMw decode header bl now users = MwResult.proceed u) ∧
    (∀ (bl : List String) (h : String) (p : Payload) (uid : Nat),
        header = some h →
        bearerToken h ∈ bl → bearerToken h ≠ "" →
        decode (bearerToken h) = some p → now < p.exp →
        p.userId = some uid → uid ∈ users →
        optionalAuthMw decode header bl now users = MwResult.proceed (some uid)) ∧
    (∀ (bl : List String) (h : String), header = some h →
        decode (bearerToken h) = none →
        optionalAuthMw decode header bl now users = MwResult.proceed none) ∧
    (∀ (bl : List String) (h : String) (p : Payload), header = some h →
        decode (bearerToken h) = some p → p.exp ≤ now →
        optionalAuthMw decode header bl now users = MwResult.proceed none) ∧
    (∀ (bl : List String) (h : String) (p : Payload) (uid : Nat),
        header = some h →
        decode (bearerToken h) = some p → now < p.exp → p.userId = some uid →
        uid ∉ users →
        optionalAuthMw decode header bl now users = MwResult.proceed none) := by
  refine ⟨fun bl1 bl2 => rfl, ?_, ?_, ?_, ?_, ?_⟩
  · intro bl
    cases header with
    | none => exact ⟨none, rfl⟩
    | some h =>
      by_cases ht : bearerToken h = ""
      · exact ⟨none, by simp [optionalAuthMw, ht]⟩
      · have ht' : (bearerToken h == "") = false := beq_eq_false_iff_ne.mpr ht
        cases hd : decode (bearerToken h) with
        | none => exact ⟨none, by simp [optionalAuthMw, ht', hd]⟩
        | some p =>
          by_cases he : p.exp ≤ now
          · exact ⟨none, by simp [optionalAuthMw, ht', hd, he]⟩
          · cases hu : p.userId with
            | none => exact ⟨none, by simp [optionalAuthMw, ht', hd, he, hu]⟩
            | some uid =>
              by_cases hm : uid ∈ users
              · exact ⟨some uid, by simp [optionalAuthMw, ht', hd, he, hu, hm]⟩
              · exact ⟨none, by simp [optionalAuthMw, ht', hd, he, hu, hm]⟩
  · intro bl h p uid hh hbl ht hd hlt hu hm
    subst hh
    have ht' : (bearerToken h == "") = false := beq_eq_false_iff_ne.mpr ht
    have he : ¬ p.exp ≤ now := not_le.mpr hlt
    simp [optionalAuthMw, ht', hd, he, hu, hm]
  · intro bl h hh hd
    subst hh
    by_cases ht : bearerToken h = ""
    · simp [optionalAuthMw, ht]
    · have ht' : (bearerToken h == "") = false := beq_eq_false_iff_ne.mpr ht
      simp [optionalAuthMw, ht', hd]
  · intro bl h p hh hd he
    subst hh
    by_cases ht : bearerToken h = ""
    · simp [optionalAuthMw, ht]
    · have ht' : (bearerToken h == "") = false := beq_eq_false_iff_ne.mpr ht
      simp [optionalAuthMw, ht', hd, he]
  · intro bl h p uid hh hd hlt hu hm
    subst hh
    by_cases ht : bearerToken h = ""
    · simp [optionalAuthMw, ht]
    · have ht' : (bearerToken h == "") = false := beq_eq_false_iff_ne.mpr ht
      have he : ¬ p.exp ≤ now := not_le.mpr hlt
      simp [optionalAuthMw, ht', hd, he, hu, hm]

/-- Witness for C10: a token revoked via logout (`tokgood` in the
blacklist) still attaches user 1; malformed, expired and unresolvable
tokens proceed unauthenticated; and two different blacklists give the same
result. -/
theorem optionalAuthFallthrough_w :
    optionalAuthMw decodeFix (some "Bearer tokgood") ["tokgood"] 10 [1]
        = MwResult.proceed (some 1) ∧
    optionalAuthMw decodeFix (some "Bearer junk") [] 10 [1] = MwResult.proceed none ∧
    optionalAuthMw decodeFix (some "Bearer tokold") [] 10 [1] = MwResult.proceed none ∧
    optionalAuthMw decodeFix (some "Bearer tokghost") [] 10 [1] = MwResult.proceed none ∧
    optionalAuthMw decodeFix (some "Bearer tokgood") ["x"] 10 [1]
        = optionalAuthMw decodeFix (some "Bearer tokgood") ["y"] 10 [1] := by
  refine ⟨?_, ?_, ?_, ?_, ?_⟩
  · exact (optionalAuthFallthrough decodeFix (some "Bearer tokgood") 10 [1]).2.2.1
      ["tokgood"] "Bearer tokgood" { userId := some 1, exp := 100 } 1
      rfl (by decide) (by decide) (by decide) (by decide) rfl (by decide)
  · exact (optionalAuthFallthrough decodeFix (some "Bearer junk") 10 [1]).2.2.2.1
      [] "Bearer junk" rfl (by decide)
  · exact (optionalAuthFallthrough decodeFix (some "Bearer tokold") 10 [1]).2.2.2.2.1
      [] "Bearer tokold" { userId := some 1, exp := 5 } rfl (by decide) (by decide)
  · exact (optionalAuthFallthrough decodeFix (some "Bearer tokghost") 10 [1]).2.2.2.2.2
      [] "Bearer tokghost" { userId := some 42, exp := 100 } 42
      rfl (by decide) (by decide) (by decide) (by decide)
  · exact (optionalAuthFallthrough decodeFix (some "Bearer tokgood") 10 [1]).1 ["x"] ["y"]

/-! ## C3 — pagination of the public listing -/

/-- The modelled store sort preserves length. -/
theorem sortBlogs_length (sort : String) (l : List Blog) :
    (sortBlogs sort l).length = l.length :=
  (List.perm_insertionSort (sortKeyLe sort) l).length_eq

/-- The modelled store sort preserves membership. -/
theorem sortBlogs_mem (sort : String) (b : Blog) (l : List Blog) :
    b ∈ sortBlogs sort l ↔ b ∈ l :=
  (List.perm_insertionSort (sortKeyLe sort) l).mem_iff

/-- Claim C3 (amended): the returned page is at most the clamped page size
long and skips `(pageNum-1)*limitNum` matching documents — its length is
exactly `min limitNum (total - skip)` — every returned post is published
and matches the filter, `total` counts all matching published posts, and
the total-pages value is `ceil(total / rawLimit)` computed with the raw
requested page size; this coincides with `ceil(total / limitNum)` exactly
when the requested size already lies within 1..100. -/
theorem listPagination (store : List Blog) (page limit : Nat)
    (category search : Option String) (sort : String) (hlim : 1 ≤ limit) :
    (listBlogs store page limit category search sort).blogs.length
        = min (limitNumOf limit)
            ((store.filter (matchesListQuery category search)).length
              - (pageNumOf page - 1) * limitNumOf limit) ∧
    (∀ b ∈ (listBlogs store page limit category search sort).blogs,
        b.status = "published" ∧ matchesListQuery category search b = true) ∧
    (listBlogs store page limit category search sort).total
        = (store.filter (matchesListQuery category search)).length ∧
    (listBlogs store page limit category search sort).totalPages
        = jsCeilDiv (store.filter (matchesListQuery category search)).length limit ∧
    (limit ≤ 100 →
        (listBlogs store page limit category search sort).totalPages
          = jsCeilDiv (store.filter (matchesListQuery category search)).length
              (limitNumOf limit)) := by
  refine ⟨?_, ?_, rfl, rfl, ?_⟩
  · show (((sortBlogs sort (store.filter (matchesListQuery category search))).drop
        ((pageNumOf page - 1) * limitNumOf limit)).take (limitNumOf limit)).length = _
    rw [List.length_take, List.length_drop, sortBlogs_length]
  · intro b hb
    have hb1 : b ∈ (sortBlogs sort
        (store.filter (matchesListQuery category search))).drop
          ((pageNumOf page - 1) * limitNumOf limit) := List.mem_of_mem_take hb
    have hb2 := (sortBlogs_mem sort b _).mp (List.mem_of_mem_drop hb1)
    have hb3 : matchesListQuery category search b = true := (List.mem_filter.mp hb2).2
    refine ⟨?_, hb3⟩
    have hb4 := hb3
    unfold matchesListQuery at hb4
    simp only [Bool.and_eq_true] at hb4
    exact eq_of_beq hb4.1.1
  · intro h100
    have heq : limitNumOf limit = limit := by
      unfold limitNumOf
      rw [Nat.max_eq_right hlim, Nat.min_eq_right h100]
    rw [heq]
    rfl

/-- A published fixture post with index-dependent id and timestamp. -/
def pubBlogN (i : Nat) : Blog :=
  { id := i, title := "Entry title", content := "entry body content",
    excerpt := "entry excerpt!", author := 0, category := "Other", tags := [],
    status := "published", publishedAt := some i, readTime := 1, views := 0,
    likes := [] }

/-- 101 published posts. -/
def storeLarge : List Blog := (List.range 101).map pubBlogN

/-- 25 published posts. -/
def store25 : List Blog := (List.range 25).map pubBlogN

set_option maxRecDepth 4000 in
/-- Counterexample for C3 as stated: with 101 matching published posts and
requested page size 200 (clamped size 100), the code answers
`totalPages = ceil(101/200) = 1`, while the claim's `ceil(total/s)` with
the clamped size `s = 100` gives 2. -/
theorem listPagination_cex :
    (listBlogs storeLarge 1 200 none none "newest").total = 101 ∧
    (listBlogs storeLarge 1 200 none none "newest").totalPages = 1 ∧
    jsCeilDiv (listBlogs storeLarge 1 200 none none "newest").total
      (limitNumOf 200) = 2 := by
  refine ⟨by decide, by decide, by decide⟩

set_option maxRecDepth 4000 in
/-- Witness for C3 (amended) at the 25-post store with page size 10:
pages 1-3 have lengths 10, 10, 5, the total is 25 and the total-pages value
is 3. -/
theorem listPagination_w :
    (listBlogs store25 1 10 none none "newest").blogs.length = 10 ∧
    (listBlogs store25 2 10 none none "newest").blogs.length = 10 ∧
    (listBlogs store25 3 10 none none "newest").blogs.length = 5 ∧
    (listBlogs store25 1 10 none none "newest").totalPages = 3 ∧
    (listBlogs store25 1 10 none none "newest").total = 25 := by
  have h1 := listPagination store25 1 10 none none "newest" (by decide)
  have h2 := listPagination store25 2 10 none none "newest" (by decide)
  have h3 := listPagination store25 3 10 none none "newest" (by decide)
  refine ⟨?_, ?_, ?_, ?_, ?_⟩
  · rw [h1.1]; decide
  · rw [h2.1]; decide
  · rw [h3.1]; decide
  · rw [h1.2.2.2.1]; decide
  · rw [h1.2.2.1]; decide

/-! ## C6 — read time from the split word count -/

/-- The split scanner always yields at least one segment (JavaScript's
`split` never returns an empty array). -/
theorem jsSplitGo_length_pos : ∀ (l : List Char) (w : Bool) (cur : List Char),
    1 ≤ (jsSplitGo l w cur).length := by
  intro l
  induction l with
  | nil =>
    intro w cur
    simp [jsSplitGo]
  | cons c rest ih =>
    intro w cur
    unfold jsSplitGo
    split
    · split
      · exact ih true cur
      · simp
    · exact ih false (c :: cur)

/-- The stored read time is always at least 1: the split yields at least
one segment and `ceil(x/200)` of a positive count is positive. -/
theorem one_le_computeReadTime (content : String) : 1 ≤ computeReadTime content := by
  unfold computeReadTime jsCeilDiv jsWordCount jsSplit
  have h := jsSplitGo_length_pos content.toList false []
  refine (Nat.le_div_iff_mul_le (by norm_num)).mpr ?_
  omega

/-- If a list ends with a non-whitespace character (or is empty), so does
its tail-after-head, unless the tail is empty. -/
theorem endsOk_of_cons {c : Char} {rest : List Char}
    (h : endsOk (c :: rest) = true) : endsOk rest = true := by
  cases rest with
  | nil => rfl
  | cons d tl =>
    unfold endsOk at h ⊢
    rw [List.getLast?_cons_cons] at h
    exact h

/-- Under `endsOk`, a whitespace head forces a nonempty tail whose last
character is non-whitespace. -/
theorem lastNonWs_of_cons {c : Char} {rest : List Char}
    (h : endsOk (c :: rest) = true) (hc : isWsChar c = true) :
    lastCharNonWs rest = true := by
  cases rest with
  | nil =>
    exfalso
    unfold endsOk at h
    simp only [List.getLast?_singleton] at h
    rw [hc] at h
    exact absurd h (by decide)
  | cons d tl =>
    unfold endsOk at h
    unfold lastCharNonWs
    rw [List.getLast?_cons_cons] at h
    exact h

/-- A nonempty list whose last character is non-whitespace also satisfies
`endsOk` on its tail. -/
theorem endsOk_of_lastNonWs_cons {c : Char} {rest : List Char}
    (h : lastCharNonWs (c :: rest) = true) : endsOk rest = true := by
  cases rest with
  | nil => rfl
  | cons d tl =>
    unfold lastCharNonWs at h
    unfold endsOk
    rw [List.getLast?_cons_cons] at h
    exact h

/-- Under `lastCharNonWs`, a whitespace head forces a nonempty tail whose
last character is non-whitespace. -/
theorem lastNonWs_of_lastNonWs_cons {c : Char} {rest : List Char}
    (h : lastCharNonWs (c :: rest) = true) (hc : isWsChar c = true) :
    lastCharNonWs rest = true := by
  cases rest with
  | nil =>
    exfalso
    unfold lastCharNonWs at h
    simp only [List.getLast?_singleton] at h
    rw [hc] at h
    exact absurd h (by decide)
  | cons d tl =>
    unfold lastCharNonWs at h ⊢
    rw [List.getLast?_cons_cons] at h
    exact h

/-- Segment count versus word count, by scanner state: when the remaining
input ends in a non-whitespace character, outside a whitespace run the
segment count is the word count (counted as if inside a word) plus one, and
inside a whitespace run it is exactly the word count. -/
theorem jsSplitGo_words : ∀ l : List Char,
    (∀ cur, endsOk l = true →
        (jsSplitGo l false cur).length = wordsSpecGo l true + 1) ∧
    (∀ cur, lastCharNonWs l = true →
        (jsSplitGo l true cur).length = wordsSpecGo l false) := by
  intro l
  induction l with
  | nil =>
    constructor
    · intro cur _
      simp [jsSplitGo, wordsSpecGo]
    · intro cur h
      exact absurd h (by decide)
  | cons c rest ih =>
    obtain ⟨ihP, ihQ⟩ := ih
    constructor
    · intro cur hend
      by_cases hc : isWsChar c = true
      · have hrest : lastCharNonWs rest = true := lastNonWs_of_cons hend hc
        have hlen := ihQ [] hrest
        unfold jsSplitGo wordsSpecGo
        simp only [hc, if_true, Bool.false_eq_true, if_false, List.length_cons, hlen]
      · have hcf : isWsChar c = false := by
          cases h : isWsChar c
          · rfl
          · exact absurd h hc
        have hrest : endsOk rest = true := endsOk_of_cons hend
        have hlen := ihP (c :: cur) hrest
        unfold jsSplitGo wordsSpecGo
        simp only [hcf, Bool.false_eq_true, if_false, if_true, hlen]
        omega
    · intro cur hlast
      by_cases hc : isWsChar c = true
      · have hrest : lastCharNonWs rest = true := lastNonWs_of_lastNonWs_cons hlast hc
        have hlen := ihQ cur hrest
        unfold jsSplitGo wordsSpecGo
        simp only [hc, if_true, hlen]
      · have hcf : isWsChar c = false := by
          cases h : isWsChar c
          · rfl
          · exact absurd h hc
        have hrest : endsOk rest = true := endsOk_of_lastNonWs_cons hlast
        have hlen := ihP (c :: cur) hrest
        unfold jsSplitGo wordsSpecGo
        simp only [hcf, Bool.false_eq_true, if_false, hlen]
        omega

/-- On a body that neither begins nor ends with whitespace, the
`split(/\s+/)` segment count and the ordinary word count agree. -/
theorem jsWordCount_eq_wordsSpec (content : String)
    (h1 : headCharNonWs content.toList = true)
    (h2 : endsOk content.toList = true) :
    jsWordCount content = wordsSpec content := by
  unfold jsWordCount wordsSpec jsSplit
  cases hl : content.toList with
  | nil =>
    rw [hl] at h1
    exact absurd h1 (by decide)
  | cons c rest =>
    rw [hl] at h2
    have hcf : isWsChar c = false := by
      rw [hl] at h1
      have h1b : (!isWsChar c) = true := h1
      cases h : isWsChar c
      · rfl
      · rw [h] at h1b; exact absurd h1b (by decide)
    have hrest : endsOk rest = true := endsOk_of_cons h2
    have hlen := (jsSplitGo_words rest).1 [c] hrest
    unfold jsSplitGo wordsSpecGo
    simp only [hcf, Bool.false_eq_true, if_false, hlen]
    omega

/-- On a body that neither begins nor ends with whitespace, the code's read
time equals the spec's formula. -/
theorem computeReadTime_eq_spec (content : String)
    (h1 : headCharNonWs content.toList = true)
    (h2 : endsOk content.toList = true) :
    computeReadTime content = specReadTime content := by
  have hw := jsWordCount_eq_wordsSpec content h1 h2
  have hpos := one_le_computeReadTime content
  unfold computeReadTime at hpos ⊢
  unfold specReadTime
  rw [hw] at hpos ⊢
  exact (Nat.max_eq_left hpos).symm

/-- Claim C6 (amended): the stored read time is `ceil(segments/200)` where
`segments` is the length of `content.split(/\s+/)` — one more than the
number of maximal whitespace runs — it is always at least 1, and whenever
the body neither begins nor ends with whitespace it equals the claimed
`ceil(wordCount/200)` (minimum 1) with `wordCount` the number of
whitespace-separated words.  This holds at creation and at every update
whose patch carries content. -/
theorem readTimeFormula :
    (∀ newId authorId b now blog,
        createBlog newId authorId b now = Except.ok blog →
        blog.readTime = computeReadTime b.content ∧
        1 ≤ blog.readTime ∧
        (headCharNonWs b.content.toList = true → endsOk b.content.toList = true →
           blog.readTime = specReadTime b.content)) ∧
    (∀ store blogId uid p now st blog c,
        updateBlog store blogId uid p now = Except.ok (st, blog) →
        p.content = some c →
        blog.readTime = computeReadTime c ∧
        1 ≤ blog.readTime ∧
        (headCharNonWs c.toList = true → endsOk c.toList = true →
           blog.readTime = specReadTime c)) := by
  constructor
  · intro newId authorId b now blog hc
    unfold createBlog at hc
    split at hc
    · simp at hc
    · have hb := (Except.ok.inj hc).symm
      rw [hb]
      refine ⟨rfl, one_le_computeReadTime b.content, ?_⟩
      intro h1 h2
      exact computeReadTime_eq_spec b.content h1 h2
  · intro store blogId uid p now st blog c hok hpc
    unfold updateBlog at hok
    split at hok
    · simp at hok
    · split at hok
      · simp at hok
      · rename_i orig hfind
        split at hok
        · simp at hok
        · simp only [Except.ok.injEq, Prod.mk.injEq] at hok
          have hb : blog = applyPatch orig p now := hok.2.symm
          have hrt : blog.readTime = computeReadTime c := by
            rw [hb]
            simp [applyPatch, hpc]
          refine ⟨hrt, ?_, ?_⟩
          · rw [hrt]
            exact one_le_computeReadTime c
          · intro h1 h2
            rw [hrt]
            exact computeReadTime_eq_spec c h1 h2

/-- A body of exactly 200 one-letter words, each followed by one space —
so the string ends in whitespace. -/
def wideBody : String := String.mk (List.flatten (List.replicate 200 ['a', ' ']))

/-- A valid creation body whose content is `wideBody`. -/
def bodyTrailingWs : CreateBody :=
  { title := "A valid title", content := wideBody,
    excerpt := "A valid excerpt here", category := "Other", tags := [],
    status := some "draft" }

/-- The stored read time of a creation result, when it succeeded. -/
def readTimeOf : Except Nat Blog → Option Nat
  | .ok b => some b.readTime
  | .error _ => none

set_option maxRecDepth 8000 in
/-- Counterexample for C6 as stated: a valid creation body of exactly 200
whitespace-separated words with one trailing space stores `readTime = 2`
(the code counts 201 split segments), while the claim's formula
`ceil(wordCount/200)` with minimum 1 gives 1. -/
theorem readTimeFormula_cex :
    validCreateBody bodyTrailingWs = true ∧
    wordsSpec wideBody = 200 ∧
    jsWordCount wideBody = 201 ∧
    readTimeOf (createBlog 1 9 bodyTrailingWs 0) = some 2 ∧
    specReadTime wideBody = 1 := by
  refine ⟨by decide, by decide, by decide, by decide, by decide⟩

/-- A ten-word body without boundary whitespace. -/
def bodyClean : CreateBody :=
  { title := "A valid title",
    content := "one two three four five six seven eight nine ten",
    excerpt := "A valid excerpt here", category := "Other", tags := [],
    status := some "draft" }

/-- The document `createBlog` stores for `bodyClean`. -/
def blogClean : Blog :=
  { id := 1, title := "A valid title",
    content := "one two three four five six seven eight nine ten",
    excerpt := "A valid excerpt here", author := 9, category := "Other",
    tags := [], status := "draft", publishedAt := none, readTime := 1,
    views := 0, likes := [] }

/-- Witness for C6 (amended) at a clean ten-word body: the stored read
time matches the spec's formula and both are 1. -/
theorem readTimeFormula_w :
    readTimeOf (createBlog 1 9 bodyClean 0) = some (specReadTime bodyClean.content) ∧
    specReadTime bodyClean.content = 1 := by
  constructor
  · have hc : createBlog 1 9 bodyClean 0 = Except.ok blogClean := rfl
    have h := (readTimeFormula.1 1 9 bodyClean 0 blogClean hc).2.2 (by decide) (by decide)
    rw [hc]
    simp only [readTimeOf]
    rw [h]
  · decide

end BlogSpace
